import Mathlib

/-!
Verification of the MetOffice weather-data ingestion core
(`weather_data/utils.py`, `weather_data/models.py`, `weather_data/tasks.py`).

The Python code is shallowly embedded: Python `str` values become `List Char`,
Python `float`/`Decimal` numeric values become `ℚ` (the bulletin values are
plain decimal literals, which `float`/`Decimal(str(v))` represent exactly for
the comparisons the code performs), Python `datetime.date` becomes `PyDate`,
and the Django ORM state becomes explicit record lists threaded through the
functions.
-/

set_option maxRecDepth 4000

/-- Python strings are modelled as lists of characters. -/
abbrev Str := List Char

/-- Leading-whitespace removal, as in one side of Python `str.strip()`. -/
def dropWs (l : Str) : Str := l.dropWhile Char.isWhitespace

/-- Python `str.strip()`: remove leading and trailing whitespace. -/
def pyStrip (l : Str) : Str := ((dropWs l).reverse.dropWhile Char.isWhitespace).reverse

/-- Helper for `pySplitWs`: walk the characters, `acc` holding the reversed
current token. -/
def pySplitWsAux (acc : Str) : Str → List Str
  | [] => if acc.isEmpty then [] else [acc.reverse]
  | c :: cs =>
    if c.isWhitespace then
      if acc.isEmpty then pySplitWsAux [] cs
      else acc.reverse :: pySplitWsAux [] cs
    else pySplitWsAux (c :: acc) cs

/-- Python `str.split()` with no argument: split on runs of whitespace,
returning no empty tokens. -/
def pySplitWs (l : Str) : List Str := pySplitWsAux [] l

/-- Python `str.split(sep)` for a one-character separator (used with `'\n'`):
consecutive separators produce empty fields. -/
def pySplitChar (sep : Char) : Str → List Str
  | [] => [[]]
  | c :: cs =>
    if c = sep then [] :: pySplitChar sep cs
    else
      match pySplitChar sep cs with
      | [] => [[c]]
      | t :: ts => (c :: t) :: ts

/-- Python `str.lower()` (ASCII case folding suffices for this data). -/
def pyLower (l : Str) : Str := l.map Char.toLower

/-- `startsWithL s pat` holds when `pat` is an initial segment of `s`
(Python `str.startswith`). -/
def startsWithL : Str → Str → Bool
  | _, [] => true
  | [], _ :: _ => false
  | c :: cs, p :: ps => c = p && startsWithL cs ps

/-- Python substring containment `pat in s`. -/
def containsTok (pat : Str) : Str → Bool
  | [] => pat.isEmpty
  | c :: cs => startsWithL (c :: cs) pat || containsTok pat cs

/-- Python `str.isdigit()` restricted to ASCII digits, as the bulletins use. -/
def isDigitStr (l : Str) : Bool := !l.isEmpty && l.all Char.isDigit

/-- Numeric value of a digit string. -/
def digitsVal (l : Str) : Nat := l.foldl (fun a c => 10 * a + (c.toNat - '0'.toNat)) 0

/-- Parse a non-empty all-digit string. -/
def parseDigits (l : Str) : Option Nat :=
  if isDigitStr l then some (digitsVal l) else none

/-- Python `int(s)` on the token shapes occurring in bulletins: optional sign
followed by digits (whitespace already stripped by `split`); any other shape
raises `ValueError`, modelled as `none`. -/
def pyInt (s : Str) : Option Int :=
  match pyStrip s with
  | '+' :: r => (parseDigits r).map Int.ofNat
  | '-' :: r => (parseDigits r).map (fun n => -(n : Int))
  | r => (parseDigits r).map Int.ofNat

/-- Unsigned decimal literal: `digits`, `digits.`, `.digits` or
`digits.digits`, with at least one digit overall.  The value
`intpart.frac = (digits of both parts) / 10^(length of frac)` is built with
`mkRat` directly so that it reduces on concrete inputs. -/
def parseUnsignedDec (s : Str) : Option ℚ :=
  match s.dropWhile Char.isDigit with
  | [] => if s.isEmpty then none else some (mkRat (digitsVal s) 1)
  | '.' :: frac =>
    let intPart := s.takeWhile Char.isDigit
    if frac.all Char.isDigit && (!intPart.isEmpty || !frac.isEmpty) then
      some (mkRat (digitsVal (intPart ++ frac)) (10 ^ frac.length))
    else none
  | _ => none

/-- Python `float(s)` on the plain decimal literals occurring in bulletins
(optional sign, digits, optional fractional part, surrounding whitespace
stripped); anything else — in particular the `---` placeholder — raises
`ValueError`, modelled as `none`. -/
def pyFloat (s : Str) : Option ℚ :=
  match pyStrip s with
  | '+' :: r => parseUnsignedDec r
  | '-' :: r => (parseUnsignedDec r).map Neg.neg
  | r => parseUnsignedDec r

/-- Proleptic Gregorian calendar date, the model of `datetime.date`. -/
structure PyDate where
  year : Int
  month : Nat
  day : Nat
deriving DecidableEq, Repr

/-- Gregorian leap-year test. -/
def isLeap (y : Int) : Bool := y % 4 == 0 && (y % 100 != 0 || y % 400 == 0)

/-- Number of days in a month. -/
def daysInMonth (y : Int) (m : Nat) : Nat :=
  match m with
  | 1 => 31 | 2 => if isLeap y then 29 else 28 | 3 => 31 | 4 => 30
  | 5 => 31 | 6 => 30 | 7 => 31 | 8 => 31
  | 9 => 30 | 10 => 31 | 11 => 30 | 12 => 31
  | _ => 0

/-- The `datetime.date(y, m, d)` constructor: `none` models the `ValueError`
raised on out-of-range components. -/
def mkDate (y : Int) (m d : Nat) : Option PyDate :=
  if 1 ≤ y ∧ y ≤ 9999 ∧ 1 ≤ m ∧ m ≤ 12 ∧ 1 ≤ d ∧ d ≤ daysInMonth y m then
    some ⟨y, m, d⟩
  else none

/-- `d - timedelta(days=1)` on calendar dates. -/
def predDate (d : PyDate) : PyDate :=
  if 1 < d.day then ⟨d.year, d.month, d.day - 1⟩
  else if 1 < d.month then ⟨d.year, d.month - 1, daysInMonth d.year (d.month - 1)⟩
  else ⟨d.year - 1, 12, 31⟩

/-! ## LineParser: `MetOfficeDataParser.parse_data` -/

/-- One parsed monthly record, the dict built at `utils.py:174`. -/
structure RecordDict where
  date : PyDate
  value : ℚ
  parameter : String
  region : String
  quality_flag : String
deriving DecidableEq, Repr

/-- One parsed seasonal summary, the dict built at `utils.py:204`. -/
structure SummaryDict where
  year : Int
  season : String
  value : ℚ
  parameter : String
  region : String
deriving DecidableEq, Repr

/-- The month abbreviations the header scan looks for (`utils.py:71`). -/
def monthAbbrevs : List Str :=
  [("jan" : String).data, ("feb" : String).data, ("mar" : String).data,
   ("apr" : String).data, ("may" : String).data, ("jun" : String).data]

/-- The `---`/empty placeholder test applied to a stripped token
(`utils.py:129` and `utils.py:164`). -/
def isPlaceholder (t : Str) : Bool :=
  pyStrip t = ("---" : String).data || (pyStrip t).isEmpty

/-- Does a stripped line contain one of the recognized month abbreviations,
case-insensitively (`utils.py:71`)? -/
def hasMonthTok (t : Str) : Bool :=
  monthAbbrevs.any (fun m => containsTok m (pyLower t))

/-- Is a stripped line a data line: first token all digits and at least 13
whitespace-separated tokens (`utils.py:75`–`76`)? -/
def isYearDataLine (t : Str) : Bool :=
  match pySplitWs t with
  | [] => false
  | p :: ps => isDigitStr p && decide (13 ≤ (p :: ps).length)

/-- The header scan of `utils.py:66`–`78`: `data_start` starts at `0`; the
first non-empty, non-comment line that contains a month abbreviation sets it
to the following index, the first such line that is itself a data line sets it
to its own index; if the scan falls off the end, `data_start` remains `0`. -/
def findDataStart (i : Nat) : List Str → Nat
  | [] => 0
  | l :: ls =>
    let t := pyStrip l
    if t.isEmpty || startsWithL t [ '#' ] then findDataStart (i + 1) ls
    else if hasMonthTok t then i + 1
    else if isYearDataLine t then i
    else findDataStart (i + 1) ls

/-- The month-count scan for partial rows (`utils.py:122`–`153`): walk the
tokens after the year at positions `1, 2, …` (at most 12 of them), stopping at
a placeholder, a failed `float` parse, a value past position 7 below 10 (only
taken when the row has fewer than 18 tokens, which always holds on this path),
or a value outside `[-50, 50]`. -/
def monthCountAux (total : Nat) : Nat → List Str → Nat
  | _, [] => 0
  | i, t :: ts =>
    if 13 ≤ i then 0
    else if isPlaceholder t then 0
    else
      match pyFloat t with
      | none => 0
      | some x =>
        if total < 18 ∧ 7 < i ∧ x < 10 then 0
        else if -50 ≤ x ∧ x ≤ 50 then 1 + monthCountAux total (i + 1) ts
        else 0

/-- `available_months` (`utils.py:107`–`155`): rows with at least 18 tokens
are complete years with exactly 12 months; shorter rows use the scan. -/
def availableMonths (parts : List Str) : Nat :=
  if 18 ≤ parts.length then 12 else monthCountAux parts.length 1 parts.tail

/-- The record-emission loop (`utils.py:157`–`184`): walk the month tokens in
order (`m` is the 1-based month), skip placeholders, skip tokens that fail
`float`, skip months for which `date(year, m, 1)` raises, and emit a record
dated the first of the month otherwise. -/
def emitRecords (year : Int) (param region : String) : Nat → List Str → List RecordDict
  | _, [] => []
  | m, t :: ts =>
    if isPlaceholder t then emitRecords year param region (m + 1) ts
    else
      match pyFloat t with
      | none => emitRecords year param region (m + 1) ts
      | some x =>
        match mkDate year m 1 with
        | none => emitRecords year param region (m + 1) ts
        | some d => ⟨d, x, param, region, ""⟩ :: emitRecords year param region (m + 1) ts

/-- The fixed seasonal columns (`utils.py:190`–`196`). -/
def seasonCols : List (String × Nat) :=
  [("winter", 13), ("spring", 14), ("summer", 15), ("autumn", 16), ("annual", 17)]

/-- The seasonal-emission loop (`utils.py:198`–`213`): for each of the five
fixed columns present in the row, a non-placeholder token that parses as a
number yields a summary keyed by `(year, season)`. -/
def emitSeasonal (year : Int) (param region : String) (parts : List Str) : List SummaryDict :=
  seasonCols.filterMap fun c =>
    match parts.get? c.2 with
    | none => none
    | some t =>
      if isPlaceholder t then none
      else
        match pyFloat t with
        | none => none
        | some x => some ⟨year, c.1, x, param, region⟩

/-- Parse one already-split data row (`utils.py:90`–`213`): rows with fewer
than two tokens or a first token that `int` rejects contribute nothing. -/
def parseParts (param region : String) (parts : List Str) : List RecordDict × List SummaryDict :=
  if parts.length < 2 then ([], [])
  else
    match pyInt (parts.headD []) with
    | none => ([], [])
    | some year =>
      let am := availableMonths parts
      (emitRecords year param region 1 ((parts.drop 1).take am),
       emitSeasonal year param region parts)

/-- Parse one raw data line (`utils.py:85`–`94`): strip it, skip empty and
comment lines, then split on whitespace. -/
def parseRow (param region : String) (line : Str) : List RecordDict × List SummaryDict :=
  let l := pyStrip line
  if l.isEmpty || startsWithL l [ '#' ] then ([], [])
  else parseParts param region (pySplitWs l)

/-- Accumulate rows in order, as the loop at `utils.py:85` appends to the
shared `records` and `seasonal_summaries` lists. -/
def parseRows (param region : String) : List Str → List RecordDict × List SummaryDict
  | [] => ([], [])
  | l :: ls =>
    let p := parseRow param region l
    let q := parseRows param region ls
    (p.1 ++ q.1, p.2 ++ q.2)

/-- The two possible shapes of the `parse_data` return value: the
`data_start == 0` early exit at `utils.py:80`–`82` returns the bare (empty)
`records` list, while the normal path returns the
`(records, seasonal_summaries)` tuple. -/
inductive ParseResult where
  | noStart : ParseResult
  | ok : List RecordDict → List SummaryDict → ParseResult
deriving DecidableEq, Repr

/-- `MetOfficeDataParser.parse_data` (`utils.py:49`–`220`). -/
def parseData (raw : String) (param region : String) : ParseResult :=
  let lines := pySplitChar '\n' (pyStrip raw.data)
  let ds := findDataStart 0 lines
  if ds = 0 then ParseResult.noStart
  else
    let p := parseRows param region (lines.drop ds)
    ParseResult.ok p.1 p.2

/-! ## Validator: `MetOfficeDataParser.validate_record` -/

/-- `validate_record` (`utils.py:222`–`273`).  In this embedding a
`RecordDict` always carries its four required fields, a calendar `date` and a
rational `value`, exactly the shape `parse_data` emits, so the required-field
and `isinstance` checks of `utils.py:234`–`249` always pass; what remains are
the parameter-specific bound checks, each returning `False` on violation. -/
def validateRecord (r : RecordDict) : Bool :=
  if (["Tmax", "Tmin", "Tmean"] : List String).contains r.parameter then
    !(decide (r.value < -50) || decide (50 < r.value))
  else if r.parameter = "Rainfall" then
    !decide (r.value < 0)
  else if r.parameter = "Sunshine" then
    !(decide (r.value < 0) || decide (24 < r.value))
  else true

/-! ## Persister: `MetOfficeDataParser.save_records` and the ingestion log -/

/-- A stored `WeatherRecord` row (`models.py:61`), natural key
`(region, parameter, date)`. -/
structure WRow where
  region : String
  parameter : String
  date : PyDate
  value : ℚ
  quality_flag : String
deriving DecidableEq, Repr

/-- A stored `SeasonalSummary` row (`models.py:224`), natural key
`(region, parameter, year, season)`. -/
structure SRow where
  region : String
  parameter : String
  year : Int
  season : String
  value : ℚ
deriving DecidableEq, Repr

/-- The database state the persister touches: `Region` and
`WeatherParameter` reference rows (by natural key) plus the two record
tables. -/
structure Db where
  regions : List String
  parameters : List String
  weatherRecords : List WRow
  seasonalRows : List SRow
deriving DecidableEq, Repr

/-- The mutable `DataIngestionLog` fields the core writes
(`models.py:110`–`176`); `end_time_set` models whether `end_time` is
non-null. -/
structure LogState where
  status : String
  records_processed : Nat
  records_created : Nat
  records_updated : Nat
  records_failed : Nat
  end_time_set : Bool
  error_message : String
deriving DecidableEq, Repr

/-- A fresh log as `ingest_parameter_data` creates it (`utils.py:451`). -/
def initLog : LogState :=
  ⟨"in_progress", 0, 0, 0, 0, false, ""⟩

/-- `DataIngestionLog.mark_completed` (`models.py:162`–`169`): note it
overwrites the created/updated/failed counters with its arguments. -/
def markCompleted (log : LogState) (c u f : Nat) : LogState :=
  { log with status := "completed", records_created := c, records_updated := u,
             records_failed := f, end_time_set := true }

/-- `DataIngestionLog.mark_failed` (`models.py:171`–`176`). -/
def markFailed (log : LogState) (msg : String) : LogState :=
  { log with status := "failed", error_message := msg, end_time_set := true }

/-- `get_or_create` on a reference table keyed by a string natural key. -/
def ensureRef (tbl : List String) (k : String) : List String :=
  if tbl.contains k then tbl else tbl ++ [k]

/-- `WeatherRecord.objects.update_or_create` keyed by
`(region, parameter, date)` (`utils.py:338`–`346`); the `Bool` is Django's
`created` flag. -/
def upsertW (rows : List WRow) (rc pn : String) (d : PyDate) (v : ℚ) (qf : String) :
    List WRow × Bool :=
  if rows.any (fun w => w.region = rc ∧ w.parameter = pn ∧ w.date = d) then
    (rows.map (fun w =>
      if w.region = rc ∧ w.parameter = pn ∧ w.date = d then
        { w with value := v, quality_flag := qf }
      else w), false)
  else (rows ++ [⟨rc, pn, d, v, qf⟩], true)

/-- `SeasonalSummary.objects.update_or_create` keyed by
`(region, parameter, year, season)` (`utils.py:362`–`370`). -/
def upsertS (rows : List SRow) (rc pn : String) (y : Int) (season : String) (v : ℚ) :
    List SRow × Bool :=
  if rows.any (fun s => s.region = rc ∧ s.parameter = pn ∧ s.year = y ∧ s.season = season) then
    (rows.map (fun s =>
      if s.region = rc ∧ s.parameter = pn ∧ s.year = y ∧ s.season = season then
        { s with value := v }
      else s), false)
  else (rows ++ [⟨rc, pn, y, season, v⟩], true)

/-- The record loop of `save_records` (`utils.py:327`–`355`) over one
resolved `(region, parameter)` pair, returning the new table and the
`(created, updated, failed)` counters.  The batching by
`INGESTION_BATCH_SIZE` only partitions this same in-order traversal and does
not change any state, so the loop is modelled unbatched. -/
def saveMonthly (rc pn : String) (rows : List WRow) : List RecordDict → List WRow × Nat × Nat × Nat
  | [] => (rows, 0, 0, 0)
  | r :: rs =>
    if validateRecord r then
      let u := upsertW rows rc pn r.date r.value r.quality_flag
      let rest := saveMonthly rc pn u.1 rs
      (rest.1, (if u.2 then 1 else 0) + rest.2.1, (if u.2 then 0 else 1) + rest.2.2.1, rest.2.2.2)
    else
      let rest := saveMonthly rc pn rows rs
      (rest.1, rest.2.1, rest.2.2.1, 1 + rest.2.2.2)

/-- The seasonal-summary loop of `save_records` (`utils.py:357`–`379`),
returning the new table and the `(seasonal_created, seasonal_updated)`
counters. -/
def saveSeasonal (rc pn : String) (rows : List SRow) : List SummaryDict → List SRow × Nat × Nat
  | [] => (rows, 0, 0)
  | s :: ss =>
    let u := upsertS rows rc pn s.year s.season s.value
    let rest := saveSeasonal rc pn u.1 ss
    (rest.1, (if u.2 then 1 else 0) + rest.2.1, (if u.2 then 0 else 1) + rest.2.2)

/-- The `(region, parameter)` resolution of `utils.py:292`–`323`: taken from
the first record, else from the first seasonal summary, else the function
returns without touching anything. -/
def resolvePair (records : List RecordDict) (summaries : List SummaryDict) :
    Option (String × String) :=
  match records with
  | r :: _ => some (r.region, r.parameter)
  | [] =>
    match summaries with
    | s :: _ => some (s.region, s.parameter)
    | [] => none

/-- `MetOfficeDataParser.save_records` (`utils.py:275`–`414`): resolve the
reference rows, run both loops, set the aggregate totals on the log, then
take the terminal transition — `mark_completed` with the *monthly* counters
when nothing failed, else status `partial` with `end_time` set.  Returns the
new database, the new log and the function's `(created, updated, failed)`
return value. -/
def saveRecords (db : Db) (records : List RecordDict) (summaries : List SummaryDict)
    (log : LogState) : Db × LogState × Nat × Nat × Nat :=
  match resolvePair records summaries with
  | none => (db, log, 0, 0, 0)
  | some (rc, pn) =>
    let regions := ensureRef db.regions rc
    let params := ensureRef db.parameters pn
    let m := saveMonthly rc pn db.weatherRecords records
    let wrows := m.1
    let c := m.2.1
    let u := m.2.2.1
    let f := m.2.2.2
    let s := saveSeasonal rc pn db.seasonalRows summaries
    let srows := s.1
    let sc := s.2.1
    let su := s.2.2
    let log1 : LogState :=
      { log with records_processed := records.length + summaries.length,
                 records_created := c + sc, records_updated := u + su,
                 records_failed := f }
    let log2 :=
      if f = 0 then markCompleted log1 c u f
      else { log1 with status := "partial", end_time_set := true }
    (⟨regions, params, wrows, srows⟩, log2, c, u, f)

/-! ## Orchestrator: `DataIngestionManager.ingest_parameter_data` -/

/-- The message used when the fetched text is falsy (`utils.py:462`). -/
def fetchFailMsg : String := "Failed to fetch data from MetOffice"

/-- The message of the `ValueError` raised when the bare list returned by the
`data_start == 0` path of `parse_data` is unpacked into
`records, seasonal_summaries` at `utils.py:466`; the orchestrator's
`except Exception` turns it into `mark_failed(str(e))`. -/
def unpackFailMsg : String := "not enough values to unpack (expected 2, got 0)"

/-- The message used when parsing yields no records and no summaries
(`utils.py:468`). -/
def noUsableMsg : String := "No valid records or seasonal summaries found in data"

/-- `DataIngestionManager.ingest_parameter_data` (`utils.py:439`–`478`),
with the outcome of `fetch_data` supplied as input (`none` models a request
exception, `some s` a 2xx body).  The guard `if not raw_data` tests Python
falsiness, so an empty body takes the fetch-failure branch. -/
def ingestParameterData (db : Db) (param region : String) (fetchResult : Option String) :
    Db × LogState :=
  match fetchResult with
  | none => (db, markFailed initLog fetchFailMsg)
  | some raw =>
    if raw = "" then (db, markFailed initLog fetchFailMsg)
    else
      match parseData raw param region with
      | ParseResult.noStart => (db, markFailed initLog unpackFailMsg)
      | ParseResult.ok recs summs =>
        if recs.isEmpty && summs.isEmpty then (db, markFailed initLog noUsableMsg)
        else
          let r := saveRecords db recs summs initLog
          (r.1, r.2.1)

/-! ## AggregateEngine: `weather_data/tasks.py` -/

/-- The natural key of a `WeatherAggregate` row (`models.py:212`). -/
structure AggKey where
  region : String
  parameter : String
  aggregate_type : String
  period_start : PyDate
  period_end : PyDate
deriving DecidableEq, Repr

/-- The computed statistics stored on an aggregate row. -/
structure AggVal where
  avg_value : ℚ
  min_value : ℚ
  max_value : ℚ
  record_count : Nat
deriving DecidableEq, Repr

/-- A stored `WeatherAggregate` row. -/
structure AggRow where
  key : AggKey
  val : AggVal
deriving DecidableEq, Repr

/-- The month of a record for `TruncMonth('date')` grouping: the
`(region, parameter, year, month)` quadruple. -/
def wrowGroup (w : WRow) : String × String × Int × Nat :=
  (w.region, w.parameter, w.date.year, w.date.month)

/-- Helper for `dedupKeys`: keep a key only on its first occurrence. -/
def dedupAux (seen : List (String × String × Int × Nat)) :
    List (String × String × Int × Nat) → List (String × String × Int × Nat)
  | [] => []
  | k :: ks => if seen.contains k then dedupAux seen ks else k :: dedupAux (k :: seen) ks

/-- First-occurrence deduplication, the distinct group keys of the
`values(...).annotate(...)` query. -/
def dedupKeys (l : List (String × String × Int × Nat)) :
    List (String × String × Int × Nat) := dedupAux [] l

/-- Average, minimum, maximum and count of a non-empty value list
(`Avg`/`Min`/`Max`/`Count` of the grouped query). -/
def statsOf (vs : List ℚ) : AggVal :=
  ⟨vs.sum / vs.length, vs.foldr min (vs.headD 0), vs.foldr max (vs.headD 0), vs.length⟩

/-- `period_start`/`period_end` of a monthly aggregate
(`tasks.py:37`–`42`): the first of the month through the day before the first
of the next month. -/
def monthlyPeriod (y : Int) (m : Nat) : PyDate × PyDate :=
  (⟨y, m, 1⟩,
   if m = 12 then predDate ⟨y + 1, 1, 1⟩ else predDate ⟨y, m + 1, 1⟩)

/-- The grouped rows of `generate_monthly_aggregates` (`tasks.py:24`–`31`)
computed from the stored records: one `(key, stats)` pair per distinct
`(region, parameter, month)` group. -/
def monthlyGroups (records : List WRow) : List (AggKey × AggVal) :=
  (dedupKeys (records.map wrowGroup)).map fun g =>
    let p := monthlyPeriod g.2.2.1 g.2.2.2
    (⟨g.1, g.2.1, "monthly", p.1, p.2⟩,
     statsOf ((records.filter (fun w => wrowGroup w = g)).map (fun w => w.value)))

/-- Does an aggregate row with this natural key exist
(`WeatherAggregate.objects.filter(...).first()`, `tasks.py:45`–`51`)? -/
def aggExists (rows : List AggRow) (k : AggKey) : Bool :=
  rows.any (fun r => r.key = k)

/-- The per-target body of the aggregate loop (`tasks.py:53`–`75`): skip when
the row exists and `force` is false, otherwise overwrite the existing row or
create a new one with the fresh statistics. -/
def aggStep (force : Bool) (rows : List AggRow) (g : AggKey × AggVal) : List AggRow :=
  if aggExists rows g.1 && !force then rows
  else if aggExists rows g.1 then
    rows.map (fun r => if r.key = g.1 then ⟨g.1, g.2⟩ else r)
  else rows ++ [⟨g.1, g.2⟩]

/-- The full aggregate loop over the grouped rows. -/
def aggRun (force : Bool) (rows : List AggRow) : List (AggKey × AggVal) → List AggRow
  | [] => rows
  | g :: gs => aggRun force (aggStep force rows g) gs

/-- `generate_monthly_aggregates` (`tasks.py:12`–`87`) as a state
transformer on the aggregate table, for a fixed set of source records. -/
def generateMonthlyAggregates (force : Bool) (records : List WRow) (rows : List AggRow) :
    List AggRow :=
  aggRun force rows (monthlyGroups records)

/-- The period computation of `generate_seasonal_aggregates`
(`tasks.py:206`–`219`), for a season running from `startM` to `endM` and the
calendar year current when the job runs. -/
def seasonalPeriod (currentYear : Int) (startM endM : Nat) : PyDate × PyDate :=
  if startM ≤ endM then
    (⟨currentYear, startM, 1⟩,
     if endM = 12 then predDate ⟨currentYear + 1, 1, 1⟩
     else predDate ⟨currentYear, endM + 1, 1⟩)
  else
    (⟨currentYear - 1, startM, 1⟩, predDate ⟨currentYear, endM + 1, 1⟩)

/-! ## Spec-side definitions

These follow the wording of the specification and are compared with the
definitions translated from the source. -/

/-- Spec wording, header detection: a line is a boundary when it "is
non-empty, non-comment, and either contains a month abbreviation
(case-insensitive) or is itself a data line". -/
def isBoundaryLine (l : Str) : Bool :=
  let t := pyStrip l
  !t.isEmpty && !startsWithL t [ '#' ] && (hasMonthTok t || isYearDataLine t)

/-- Spec wording: the index of the first boundary line, scanning top-down. -/
def firstBoundary (i : Nat) : List Str → Option Nat
  | [] => none
  | l :: ls => if isBoundaryLine l then some i else firstBoundary (i + 1) ls

/-- Spec wording, month-count inference: does the scan stop at this token?
"a placeholder (`---`/empty), fails numeric parse, falls outside [-50, 50],
or — past the 7th month position — is unusually small (<10)". -/
def specStopTok (i : Nat) (t : Str) : Bool :=
  if isPlaceholder t then true
  else
    match pyFloat t with
    | none => true
    | some x => decide (x < -50 ∨ 50 < x) || (decide (7 < i) && decide (x < 10))

/-- Spec wording: the length of the maximal prefix of month tokens (positions
1 through at most 12) not containing a stopping token. -/
def specPrefixLen : Nat → List Str → Nat
  | _, [] => 0
  | i, t :: ts =>
    if 12 < i then 0
    else if specStopTok i t then 0
    else 1 + specPrefixLen (i + 1) ts

/-- Spec wording, month-count inference: "exactly 12 if the row has ≥18
tokens; otherwise the length of the maximal prefix of tokens scanned from
month position 1" that stops at the first stopping token. -/
def specInferredMonths (parts : List Str) : Nat :=
  if 18 ≤ parts.length then 12 else specPrefixLen 1 parts.tail

/-- A month token the scan accepts at positions up to 7: parses as a number
within `[-50, 50]`. -/
def monthTokOk (t : Str) : Bool :=
  match pyFloat t with
  | none => false
  | some x => decide (-50 ≤ x) && decide (x ≤ 50)

/-- A token that is exactly the `---` placeholder. -/
def isDashTok (t : Str) : Bool := pyStrip t = ("---" : String).data

/-- A token that `float` accepts. -/
def floatTok (t : Str) : Bool := (pyFloat t).isSome

/-- The season names in column order, used to state seasonal emission. -/
def seasonNames : List String := ["winter", "spring", "summer", "autumn", "annual"]

/-! ## Concrete inputs used by witnesses and counterexamples -/

/-- The end-to-end scenario bulletin: a single data line for 2023 with month
4 a placeholder, 11 numeric months and 5 seasonal columns. -/
def rawScenario : String :=
  "2023 5.1 6.2 7.3 --- 9.1 10.2 11.0 12.1 10.5 8.2 6.1 4.0 3.5 6.2 11.1 8.3 7.8"

/-- A bulletin whose very first line is a data line (13 tokens, numeric first
token) — a boundary line at index 0. -/
def rawDataAtZero : String := "1999 1.0 2.0 3.0 4.0 5.0 6.0 7.0 8.0 9.0 10.0 11.0 12.0"

/-- A bulletin with a month-abbreviation header line followed by a short data
row. -/
def rawWithHeader : String := "year jan feb\n2000 1.0 2.0"

/-- Seven numeric month tokens of a partial-year row. -/
def partialMonths : List Str :=
  [("5.1" : String).data, ("6.2" : String).data, ("7.3" : String).data,
   ("8.1" : String).data, ("9.5" : String).data, ("10.2" : String).data,
   ("11.0" : String).data]

/-- Five placeholder tokens. -/
def partialDashes : List Str :=
  [("---" : String).data, ("---" : String).data, ("---" : String).data,
   ("---" : String).data, ("---" : String).data]

/-- A partial-year row: year, seven numeric months, then placeholders from
month 8 onward. -/
def partialRow : List Str := ("2025" : String).data :: (partialMonths ++ partialDashes)

/-- A complete row: year, twelve numeric months, five seasonal columns. -/
def fullRow : List Str :=
  [("2023" : String).data, ("5.1" : String).data, ("6.2" : String).data,
   ("7.3" : String).data, ("8.4" : String).data, ("9.1" : String).data,
   ("10.2" : String).data, ("11.0" : String).data, ("12.1" : String).data,
   ("10.5" : String).data, ("8.2" : String).data, ("6.1" : String).data,
   ("4.0" : String).data, ("3.5" : String).data, ("6.2" : String).data,
   ("11.1" : String).data, ("8.3" : String).data, ("7.8" : String).data]

/-- The empty database. -/
def emptyDb : Db := ⟨[], [], [], []⟩

/-- A sample parsed monthly record. -/
def sampleRecord : RecordDict := ⟨⟨2023, 1, 1⟩, 5, "Tmax", "UK", ""⟩

/-- A second sample record with a different region field in the same batch. -/
def strayRecord : RecordDict := ⟨⟨2023, 2, 1⟩, 6, "Tmax", "Wales", ""⟩

/-- A sample parsed seasonal summary. -/
def sampleSummary : SummaryDict := ⟨2023, "winter", 4, "Tmax", "UK"⟩

/-- A sample stored weather record for the aggregate job. -/
def sampleWRow : WRow := ⟨"UK", "Tmax", ⟨2023, 1, 1⟩, 5, ""⟩

/-- A second stored record in a different month group. -/
def sampleWRow2 : WRow := ⟨"UK", "Tmax", ⟨2023, 2, 1⟩, 7, ""⟩

/-! ## Theorems -/

theorem aggStep_preserves (force : Bool) (rows : List AggRow) (g : AggKey × AggVal)
    (k : AggKey) (h : aggExists rows k = true) :
    aggExists (aggStep force rows g) k = true := by
  unfold aggStep
  by_cases h1 : aggExists rows g.1 && !force
  · rw [if_pos h1]
    exact h
  · rw [if_neg h1]
    by_cases h2 : aggExists rows g.1
    · rw [if_pos h2]
      unfold aggExists at h ⊢
      rw [List.any_eq_true] at h ⊢
      obtain ⟨r, hr, hrk⟩ := h
      refine ⟨if r.key = g.1 then ⟨g.1, g.2⟩ else r, List.mem_map_of_mem _ hr, ?_⟩
      by_cases hk : r.key = g.1
      · simp only [hk, if_pos rfl]
        simp only [decide_eq_true_eq] at hrk
        simp [← hrk, hk]
      · simp [hk, hrk]
    · rw [if_neg h2]
      unfold aggExists at h ⊢
      rw [List.any_eq_true] at h ⊢
      obtain ⟨r, hr, hrk⟩ := h
      exact ⟨r, List.mem_append_left _ hr, hrk⟩

theorem aggStep_establishes (force : Bool) (rows : List AggRow) (g : AggKey × AggVal) :
    aggExists (aggStep force rows g) g.1 = true := by
  unfold aggStep
  by_cases h1 : aggExists rows g.1 && !force
  · rw [if_pos h1]
    exact (Bool.and_eq_true _ _ ▸ h1).1
  · rw [if_neg h1]
    by_cases h2 : aggExists rows g.1
    · rw [if_pos h2]
      unfold aggExists at h2 ⊢
      rw [List.any_eq_true] at h2 ⊢
      obtain ⟨r, hr, hrk⟩ := h2
      refine ⟨if r.key = g.1 then ⟨g.1, g.2⟩ else r, List.mem_map_of_mem _ hr, ?_⟩
      simp only [decide_eq_true_eq] at hrk
      simp [hrk]
    · rw [if_neg h2]
      unfold aggExists
      rw [List.any_eq_true]
      exact ⟨⟨g.1, g.2⟩, List.mem_append_right _ (List.mem_singleton_self _), by simp⟩

theorem aggRun_preserves (force : Bool) (gs : List (AggKey × AggVal)) :
    ∀ (rows : List AggRow) (k : AggKey), aggExists rows k = true →
      aggExists (aggRun force rows gs) k = true := by
  induction gs with
  | nil => intro rows k h; exact h
  | cons g gs ih =>
    intro rows k h
    exact ih (aggStep force rows g) k (aggStep_preserves force rows g k h)

theorem aggRun_establishes (force : Bool) (gs : List (AggKey × AggVal)) :
    ∀ (rows : List AggRow) (g : AggKey × AggVal), g ∈ gs →
      aggExists (aggRun force rows gs) g.1 = true := by
  induction gs with
  | nil => intro rows g h; exact absurd h (List.not_mem_nil g)
  | cons g0 gs ih =>
    intro rows g h
    rcases List.mem_cons.mp h with h | h
    · subst h
      exact aggRun_preserves force gs (aggStep force rows g) g.1
        (aggStep_establishes force rows g)
    · exact ih (aggStep force rows g0) g h

theorem aggRun_skips_all (gs : List (AggKey × AggVal)) :
    ∀ rows : List AggRow, (∀ g ∈ gs, aggExists rows g.1 = true) →
      aggRun false rows gs = rows := by
  induction gs with
  | nil => intro rows _; rfl
  | cons g gs ih =>
    intro rows h
    have hstep : aggStep false rows g = rows := by
      unfold aggStep
      rw [if_pos]
      rw [h g (List.mem_cons_self g gs)]
      rfl
    unfold aggRun
    rw [hstep]
    exact ih rows fun g2 hg2 => h g2 (List.mem_cons_of_mem g hg2)

/-- C5: for every candidate record with all required fields, a real date and
a decimal value, the validator accepts a temperature record (Tmax/Tmin/Tmean)
exactly when its value lies in `[-50, 50]`, a Rainfall record exactly when
its value is nonnegative, a Sunshine record exactly when its value lies in
`[0, 24]`, and accepts any other parameter with no bound check; rejection is
the `false` return value, not an exception. -/
theorem validate_record_bounds (r : RecordDict) :
    (r.parameter = "Tmax" ∨ r.parameter = "Tmin" ∨ r.parameter = "Tmean" →
      (validateRecord r = true ↔ -50 ≤ r.value ∧ r.value ≤ 50)) ∧
    (r.parameter = "Rainfall" → (validateRecord r = true ↔ 0 ≤ r.value)) ∧
    (r.parameter = "Sunshine" → (validateRecord r = true ↔ 0 ≤ r.value ∧ r.value ≤ 24)) ∧
    (r.parameter ≠ "Tmax" → r.parameter ≠ "Tmin" → r.parameter ≠ "Tmean" →
      r.parameter ≠ "Rainfall" → r.parameter ≠ "Sunshine" → validateRecord r = true) := by
  refine ⟨?_, ?_, ?_, ?_⟩
  · rintro (h | h | h) <;>
      simp [validateRecord, h, List.contains, not_lt, and_comm]
  · intro h
    simp [validateRecord, h, List.contains, not_lt]
  · intro h
    simp [validateRecord, h, List.contains, not_lt, and_comm]
  · intro h1 h2 h3 h4 h5
    simp [validateRecord, List.contains, h1, h2, h3, h4, h5]

/-- Witness for C5 at the spec's concrete temperatures: 101.0 and -101.0 are
rejected, 25.0 and -49.9 accepted. -/
theorem validate_record_bounds_witness :
    validateRecord ⟨⟨2023, 1, 1⟩, 101, "Tmax", "UK", ""⟩ = false ∧
    validateRecord ⟨⟨2023, 1, 1⟩, -101, "Tmax", "UK", ""⟩ = false ∧
    validateRecord ⟨⟨2023, 1, 1⟩, 25, "Tmax", "UK", ""⟩ = true ∧
    validateRecord ⟨⟨2023, 1, 1⟩, -499/10, "Tmax", "UK", ""⟩ = true := by
  refine ⟨?_, ?_, ?_, ?_⟩
  · have h := (validate_record_bounds ⟨⟨2023, 1, 1⟩, 101, "Tmax", "UK", ""⟩).1 (Or.inl rfl)
    rw [Bool.eq_false_iff]
    intro ht
    have hb := h.mp ht
    norm_num at hb
  · have h := (validate_record_bounds ⟨⟨2023, 1, 1⟩, -101, "Tmax", "UK", ""⟩).1 (Or.inl rfl)
    rw [Bool.eq_false_iff]
    intro ht
    have hb := h.mp ht
    norm_num at hb
  · exact ((validate_record_bounds ⟨⟨2023, 1, 1⟩, 25, "Tmax", "UK", ""⟩).1 (Or.inl rfl)).mpr
      (by norm_num)
  · exact ((validate_record_bounds ⟨⟨2023, 1, 1⟩, -499/10, "Tmax", "UK", ""⟩).1 (Or.inl rfl)).mpr
      (by norm_num)

/-- C8: for every run of the seasonal aggregate job with current year `Y`,
the winter aggregate's period is exactly December 1 of `Y−1` through the last
day of February of `Y` (29 in leap years, 28 otherwise); the period is
computed from `Y` alone, independently of the records folded in. -/
theorem winter_seasonal_period (Y : Int) :
    seasonalPeriod Y 12 2 =
      (⟨Y - 1, 12, 1⟩, ⟨Y, 2, if isLeap Y then 29 else 28⟩) := by
  simp [seasonalPeriod, predDate, daysInMonth]

theorem findDataStart_cons (i : Nat) (l : Str) (rest : List Str) :
    findDataStart i (l :: rest) =
      (if isBoundaryLine l then (if hasMonthTok (pyStrip l) then i + 1 else i)
       else findDataStart (i + 1) rest) := by
  cases hE : (pyStrip l).isEmpty <;> cases hS : startsWithL (pyStrip l) [ '#' ] <;>
    cases hM : hasMonthTok (pyStrip l) <;> cases hD : isYearDataLine (pyStrip l) <;>
      simp [findDataStart, isBoundaryLine, hE, hS, hM, hD]

theorem firstBoundary_ge (ls : List Str) : ∀ i j, firstBoundary i ls = some j → i ≤ j := by
  induction ls with
  | nil => intro i j h; simp [firstBoundary] at h
  | cons l rest ih =>
    intro i j h
    by_cases hb : isBoundaryLine l
    · simp [firstBoundary, hb] at h
      omega
    · simp [firstBoundary, hb] at h
      exact (Nat.le_succ i).trans (ih (i + 1) j h)

theorem findDataStart_of_none (ls : List Str) :
    ∀ i, firstBoundary i ls = none → findDataStart i ls = 0 := by
  induction ls with
  | nil => intro i _; rfl
  | cons l rest ih =>
    intro i h
    by_cases hb : isBoundaryLine l
    · simp [firstBoundary, hb] at h
    · simp only [firstBoundary, hb, if_false] at h
      rw [findDataStart_cons, if_neg hb]
      exact ih (i + 1) h

theorem findDataStart_of_boundary (ls : List Str) :
    ∀ i j, firstBoundary i ls = some j →
      findDataStart i ls =
        (if hasMonthTok (pyStrip (ls.getD (j - i) [])) then j + 1 else j) := by
  induction ls with
  | nil => intro i j h; simp [firstBoundary] at h
  | cons l rest ih =>
    intro i j h
    rw [findDataStart_cons]
    by_cases hb : isBoundaryLine l
    · simp [firstBoundary, hb] at h
      subst h
      simp [hb]
    · simp only [firstBoundary, hb, if_false] at h
      have hge := firstBoundary_ge rest (i + 1) j h
      have hidx : j - i = (j - (i + 1)) + 1 := by omega
      rw [if_neg hb, hidx]
      simpa using ih (i + 1) j h

theorem isPlaceholder_pyFloat {t : Str} (h : isPlaceholder t = true) : pyFloat t = none := by
  unfold isPlaceholder at h
  rcases Bool.or_eq_true_iff.mp h with h1 | h1
  · have h2 : pyStrip t = [ '-', '-', '-' ] := by
      simpa using of_decide_eq_true h1
    simp [pyFloat, h2, parseUnsignedDec]
  · have h2 : pyStrip t = [] := by
      simpa [List.isEmpty_iff] using h1
    simp [pyFloat, h2, parseUnsignedDec]

theorem floatTok_not_placeholder {t : Str} (h : floatTok t = true) :
    isPlaceholder t = false := by
  cases hp : isPlaceholder t
  · rfl
  · unfold floatTok at h
    rw [isPlaceholder_pyFloat hp] at h
    exact absurd h (by simp)

theorem monthTokOk_not_placeholder {t : Str} (h : monthTokOk t = true) :
    isPlaceholder t = false := by
  cases hp : isPlaceholder t
  · rfl
  · unfold monthTokOk at h
    rw [isPlaceholder_pyFloat hp] at h
    exact absurd h (by simp)

theorem all_floatTok_of_monthTokOk {ms : List Str} (h : ms.all monthTokOk = true) :
    ms.all floatTok = true := by
  refine List.all_eq_true.mpr fun t ht => ?_
  have hok := List.all_eq_true.mp h t ht
  unfold monthTokOk at hok
  unfold floatTok
  cases hf : pyFloat t with
  | none => rw [hf] at hok; exact absurd hok (by simp)
  | some x => simp

theorem monthCountAux_eq_spec (total : Nat) (ht : total < 18) (ts : List Str) :
    ∀ i, monthCountAux total i ts = specPrefixLen i ts := by
  induction ts with
  | nil => intro i; rfl
  | cons t ts ih =>
    intro i
    by_cases h13 : 13 ≤ i
    · have h12 : 12 < i := by omega
      simp [monthCountAux, specPrefixLen, h13, h12]
    · have h12 : ¬ 12 < i := by omega
      by_cases hp : isPlaceholder t
      · simp [monthCountAux, specPrefixLen, specStopTok, h13, h12, hp]
      · cases hf : pyFloat t with
        | none => simp [monthCountAux, specPrefixLen, specStopTok, h13, h12, hp, hf]
        | some x =>
          by_cases hsm : 7 < i ∧ x < 10
          · have hx : ¬ (-50 ≤ x ∧ x ≤ 50) ∨ True := Or.inr trivial
            have hcode : total < 18 ∧ 7 < i ∧ x < 10 := ⟨ht, hsm⟩
            simp [monthCountAux, specPrefixLen, specStopTok, h13, h12, hp, hf, hcode,
              hsm.1, hsm.2]
          · by_cases hr : -50 ≤ x ∧ x ≤ 50
            · have hstop : specStopTok i t = false := by
                simp only [specStopTok, hp, Bool.false_eq_true, if_false, hf]
                have h1 : ¬ (x < -50 ∨ 50 < x) := by
                  rcases hr with ⟨hr1, hr2⟩
                  push_neg
                  exact ⟨by linarith, by linarith⟩
                have h2 : ¬ (7 < i ∧ x < 10) := hsm
                by_cases hi7 : 7 < i
                · have hx10 : ¬ x < 10 := fun hx => h2 ⟨hi7, hx⟩
                  simp [h1, hx10]
                · simp [h1, hi7]
              have hcode : ¬ (total < 18 ∧ 7 < i ∧ x < 10) := fun hc => hsm hc.2
              simp [monthCountAux, specPrefixLen, h13, h12, hp, hf, hcode, hr, hstop]
              exact ih (i + 1)
            · have hstop : specStopTok i t = true := by
                simp only [specStopTok, hp, Bool.false_eq_true, if_false, hf]
                have h1 : x < -50 ∨ 50 < x := by
                  rcases not_and_or.mp hr with h | h
                  · exact Or.inl (by push_neg at h; linarith)
                  · exact Or.inr (by push_neg at h; linarith)
                simp [h1]
              have hcode : ¬ (total < 18 ∧ 7 < i ∧ x < 10) := fun hc => hsm hc.2
              simp [monthCountAux, specPrefixLen, h13, h12, hp, hf, hcode, hr, hstop]

theorem monthCountAux_ok_prefix (total : Nat) (ds : List Str) :
    ∀ (ms : List Str) (i : Nat), ms.all monthTokOk = true → 1 ≤ i → i + ms.length ≤ 8 →
      monthCountAux total i (ms ++ ds) = ms.length + monthCountAux total (i + ms.length) ds := by
  intro ms
  induction ms with
  | nil => intro i _ _ _; simp
  | cons t ts ih =>
    intro i hall h1 h8
    simp only [List.all_cons, Bool.and_eq_true] at hall
    obtain ⟨hok, hrest⟩ := hall
    obtain ⟨x, hf, hx1, hx2⟩ : ∃ x, pyFloat t = some x ∧ -50 ≤ x ∧ x ≤ 50 := by
      unfold monthTokOk at hok
      cases hf : pyFloat t with
      | none => rw [hf] at hok; exact absurd hok (by simp)
      | some x =>
        rw [hf] at hok
        simp only [Bool.and_eq_true, decide_eq_true_eq] at hok
        exact ⟨x, rfl, hok.1, hok.2⟩
    have hp := monthTokOk_not_placeholder hok
    have h13 : ¬ 13 ≤ i := by simp only [List.length_cons] at h8; omega
    have hsm : ¬ (total < 18 ∧ 7 < i ∧ x < 10) := by
      simp only [List.length_cons] at h8
      intro hc
      omega
    simp only [List.cons_append, monthCountAux, h13, if_false, hp, Bool.false_eq_true, hf,
      hsm, and_self, hx1, hx2, if_true, List.append_eq]
    rw [ih (i + 1) hrest (by omega) (by simp only [List.length_cons] at h8; omega)]
    have hidx : i + (ts.length + 1) = i + 1 + ts.length := by omega
    simp only [List.length_cons, hidx]
    omega

theorem emitRecords_ok (year : Int) (param region : String) (hy1 : 1 ≤ year)
    (hy2 : year ≤ 9999) :
    ∀ (ms : List Str) (m : Nat), ms.all floatTok = true → 1 ≤ m → m + ms.length ≤ 13 →
      emitRecords year param region m ms =
        List.zipWith (fun t k => ⟨⟨year, k, 1⟩, (pyFloat t).getD 0, param, region, ""⟩)
          ms (List.range' m ms.length) := by
  intro ms
  induction ms with
  | nil => intro m _ _ _; rfl
  | cons t ts ih =>
    intro m hall h1 h13
    simp only [List.all_cons, Bool.and_eq_true] at hall
    obtain ⟨hok, hrest⟩ := hall
    obtain ⟨x, hf⟩ : ∃ x, pyFloat t = some x := by
      unfold floatTok at hok
      cases hf : pyFloat t with
      | none => rw [hf] at hok; exact absurd hok (by simp)
      | some x => exact ⟨x, rfl⟩
    have hp := floatTok_not_placeholder hok
    have hd : mkDate year m 1 = some ⟨year, m, 1⟩ := by
      unfold mkDate
      rw [if_pos]
      refine ⟨hy1, hy2, h1, ?_, le_refl 1, ?_⟩
      · simp only [List.length_cons] at h13; omega
      · have hm12 : m ≤ 12 := by simp only [List.length_cons] at h13; omega
        interval_cases m <;> simp [daysInMonth] <;> split <;> omega
    simp only [emitRecords, hp, Bool.false_eq_true, if_false, hf, hd, List.length_cons,
      List.range']
    rw [ih (m + 1) hrest (by omega) (by simp only [List.length_cons] at h13; omega)]
    simp [hf]

theorem emitRecords_dashes (year : Int) (param region : String) :
    ∀ (ds : List Str) (m : Nat), ds.all isDashTok = true →
      emitRecords year param region m ds = [] := by
  intro ds
  induction ds with
  | nil => intro m _; rfl
  | cons t ts ih =>
    intro m hall
    simp only [List.all_cons, Bool.and_eq_true] at hall
    have hp : isPlaceholder t = true := by
      unfold isPlaceholder
      unfold isDashTok at hall
      simp [hall.1]
    simp only [emitRecords, hp, if_true]
    exact ih (m + 1) hall.2

theorem emitRecords_append (year : Int) (param region : String) :
    ∀ (xs ys : List Str) (m : Nat),
      emitRecords year param region m (xs ++ ys) =
        emitRecords year param region m xs ++
          emitRecords year param region (m + xs.length) ys := by
  intro xs
  induction xs with
  | nil => intro ys m; simp [emitRecords]
  | cons t ts ih =>
    intro ys m
    have hlen : m + (t :: ts).length = (m + 1) + ts.length := by
      simp only [List.length_cons]; omega
    rw [hlen]
    by_cases hp : isPlaceholder t
    · simp only [List.cons_append, emitRecords, hp, if_true]
      exact ih ys (m + 1)
    · cases hf : pyFloat t with
      | none =>
        simp only [List.cons_append, emitRecords, hp, Bool.false_eq_true, if_false, hf]
        exact ih ys (m + 1)
      | some x =>
        cases hd : mkDate year m 1 with
        | none =>
          simp only [List.cons_append, emitRecords, hp, Bool.false_eq_true, if_false, hf, hd]
          exact ih ys (m + 1)
        | some d =>
          simp only [List.cons_append, emitRecords, hp, Bool.false_eq_true, if_false, hf, hd,
            List.cons_append, List.append_eq]
          rw [ih ys (m + 1)]

theorem zipWith_snd {α β : Type} (l1 : List α) (l2 : List β) (h : l1.length = l2.length) :
    List.zipWith (fun _ b => b) l1 l2 = l2 := by
  induction l1 generalizing l2 with
  | nil => cases l2 with
    | nil => rfl
    | cons b bs => simp at h
  | cons a as ih =>
    cases l2 with
    | nil => simp at h
    | cons b bs =>
      simp only [List.zipWith_cons_cons, List.cons.injEq, true_and]
      exact ih bs (by simpa using h)

/-- C2 counterexample: for the bulletin whose sole line is a data line, the
first boundary line in the spec's sense exists (at index 0), yet the parser
returns empty output instead of parsing the rows from it — the
`data_start == 0` sentinel of `utils.py:80` cannot represent a data line at
index 0. -/
theorem header_detection_cex :
    firstBoundary 0 (pySplitChar '\n' (pyStrip rawDataAtZero.data)) = some 0 ∧
    isYearDataLine (pyStrip rawDataAtZero.data) = true ∧
    parseData rawDataAtZero "Tmax" "UK" = ParseResult.noStart ∧
    (parseRows "Tmax" "UK" [rawDataAtZero.data]).1 ≠ [] := by
  refine ⟨by decide, by decide, by decide, by decide⟩

/-- C2 amended: the data start is the first non-empty, non-comment line that
contains a recognized month abbreviation (jan–jun, case-insensitively) or is
itself a data line (first token numeric, ≥13 tokens) — except that a data
line at index 0 is indistinguishable from the absent-boundary sentinel, so
the parser returns empty output for it.  A month-abbreviation boundary starts
the rows at the following line, a data-line boundary at a positive index
starts the rows at itself, and when no boundary exists the parser returns
empty output. -/
theorem header_detection_amended (raw : String) (param region : String) :
    (firstBoundary 0 (pySplitChar '\n' (pyStrip raw.data)) = none →
      parseData raw param region = ParseResult.noStart) ∧
    (∀ j, firstBoundary 0 (pySplitChar '\n' (pyStrip raw.data)) = some j →
      (hasMonthTok (pyStrip ((pySplitChar '\n' (pyStrip raw.data)).getD j [])) = true →
        parseData raw param region =
          ParseResult.ok
            (parseRows param region ((pySplitChar '\n' (pyStrip raw.data)).drop (j + 1))).1
            (parseRows param region ((pySplitChar '\n' (pyStrip raw.data)).drop (j + 1))).2) ∧
      (hasMonthTok (pyStrip ((pySplitChar '\n' (pyStrip raw.data)).getD j [])) = false →
        j ≠ 0 →
        parseData raw param region =
          ParseResult.ok
            (parseRows param region ((pySplitChar '\n' (pyStrip raw.data)).drop j)).1
            (parseRows param region ((pySplitChar '\n' (pyStrip raw.data)).drop j)).2) ∧
      (hasMonthTok (pyStrip ((pySplitChar '\n' (pyStrip raw.data)).getD j [])) = false →
        j = 0 → parseData raw param region = ParseResult.noStart)) := by
  constructor
  · intro h
    have hz := findDataStart_of_none (pySplitChar '\n' (pyStrip raw.data)) 0 h
    simp [parseData, hz]
  · intro j hj
    have hds := findDataStart_of_boundary (pySplitChar '\n' (pyStrip raw.data)) 0 j hj
    simp only [Nat.sub_zero] at hds
    refine ⟨?_, ?_, ?_⟩
    · intro hm
      simp only [hm, if_true] at hds
      simp [parseData, hds]
    · intro hm hj0
      simp only [hm, Bool.false_eq_true, if_false] at hds
      simp [parseData, hds, hj0]
    · intro hm hj0
      simp only [hm, Bool.false_eq_true, if_false] at hds
      subst hj0
      simp [parseData, hds]

theorem map_month_zipWith (year : Int) (param region : String) (ms : List Str)
    (ks : List Nat) :
    (List.zipWith
        (fun t k => (⟨⟨year, k, 1⟩, (pyFloat t).getD 0, param, region, ""⟩ : RecordDict))
        ms ks).map (fun r => r.date.month) =
      List.zipWith (fun _ k => k) ms ks := by
  rw [List.map_zipWith]

theorem seasonalCellEq (year : Int) (param region nm : String) (t : Str)
    (h : (isPlaceholder t || floatTok t) = true) :
    (if isPlaceholder t then none else
      match pyFloat t with
      | none => none
      | some x => some (⟨year, nm, x, param, region⟩ : SummaryDict)) =
    (if isPlaceholder t then none
     else some (⟨year, nm, (pyFloat t).getD 0, param, region⟩ : SummaryDict)) := by
  by_cases hp : isPlaceholder t
  · simp [hp]
  · simp only [hp, Bool.false_eq_true, if_false]
    simp only [hp, Bool.false_or] at h
    obtain ⟨x, hf⟩ := Option.isSome_iff_exists.mp h
    simp [hf]

theorem emitSeasonal_five (year : Int) (param region : String) (pre : List Str)
    (a b c d e : Str) (hpre : pre.length = 13)
    (ha : (isPlaceholder a || floatTok a) = true)
    (hb : (isPlaceholder b || floatTok b) = true)
    (hc : (isPlaceholder c || floatTok c) = true)
    (hd : (isPlaceholder d || floatTok d) = true)
    (he : (isPlaceholder e || floatTok e) = true) :
    emitSeasonal year param region (pre ++ [a, b, c, d, e]) =
      (List.zip seasonNames [a, b, c, d, e]).filterMap
        (fun p => if isPlaceholder p.2 then none
          else some ⟨year, p.1, (pyFloat p.2).getD 0, param, region⟩) := by
  have h13 : (pre ++ [a, b, c, d, e]).get? 13 = some a := by
    rw [List.get?_append_right (by omega)]
    simp [hpre]
  have h14 : (pre ++ [a, b, c, d, e]).get? 14 = some b := by
    rw [List.get?_append_right (by omega)]
    simp [hpre]
  have h15 : (pre ++ [a, b, c, d, e]).get? 15 = some c := by
    rw [List.get?_append_right (by omega)]
    simp [hpre]
  have h16 : (pre ++ [a, b, c, d, e]).get? 16 = some d := by
    rw [List.get?_append_right (by omega)]
    simp [hpre]
  have h17 : (pre ++ [a, b, c, d, e]).get? 17 = some e := by
    rw [List.get?_append_right (by omega)]
    simp [hpre]
  simp only [emitSeasonal, seasonCols, List.filterMap_cons, List.filterMap_nil,
    h13, h14, h15, h16, h17]
  rw [seasonalCellEq year param region "winter" a ha,
    seasonalCellEq year param region "spring" b hb,
    seasonalCellEq year param region "summer" c hc,
    seasonalCellEq year param region "autumn" d hd,
    seasonalCellEq year param region "annual" e he]
  simp only [seasonNames, List.zip_cons_cons, List.zip_nil_right,
    List.filterMap_cons, List.filterMap_nil]

/-- C3: the number of months inferred for a data row is exactly 12 when the
row has at least 18 tokens, and otherwise the length of the maximal prefix of
tokens scanned from month position 1 stopping at the first placeholder,
failed numeric parse, out-of-`[-50, 50]` value, or value below 10 past the
7th month position; consequently a partial row with `---` from month 8
onward yields exactly 7 monthly records, for months 1 through 7. -/
theorem month_count_inference :
    (∀ parts, availableMonths parts = specInferredMonths parts) ∧
    (∀ (param region : String) (y : Str) (year : Int) (ms ds : List Str),
      pyInt y = some year → 1 ≤ year → year ≤ 9999 →
      ms.length = 7 → ms.all monthTokOk = true → ds.all isDashTok = true →
      (parseParts param region (y :: (ms ++ ds))).1.length = 7 ∧
      (parseParts param region (y :: (ms ++ ds))).1.map (fun r => r.date.month) =
        [1, 2, 3, 4, 5, 6, 7]) := by
  constructor
  · intro parts
    unfold availableMonths specInferredMonths
    by_cases h : 18 ≤ parts.length
    · simp [h]
    · simp only [h, if_false]
      exact monthCountAux_eq_spec parts.length (by omega) parts.tail 1
  · intro param region y year ms ds hy hy1 hy2 hlen hok hdash
    have hlen2 : ¬ ((y :: (ms ++ ds)).length < 2) := by
      simp only [List.length_cons, List.length_append, hlen]
      omega
    have key : (parseParts param region (y :: (ms ++ ds))).1 =
        emitRecords year param region 1 ms := by
      simp only [parseParts, hlen2, if_false, List.headD_cons, hy, List.drop_succ_cons,
        List.drop_zero]
      by_cases h18 : 18 ≤ (y :: (ms ++ ds)).length
      · have ham : availableMonths (y :: (ms ++ ds)) = 12 := by
          unfold availableMonths
          rw [if_pos h18]
        have h12 : (12 : Nat) = ms.length + 5 := by omega
        have htake : (ms ++ ds).take 12 = ms ++ ds.take 5 := by
          rw [h12, List.take_append]
        have hdash5 : (ds.take 5).all isDashTok = true := by
          refine List.all_eq_true.mpr fun x hx => ?_
          exact List.all_eq_true.mp hdash x (List.take_subset _ _ hx)
        rw [ham, htake, emitRecords_append,
          emitRecords_dashes year param region (ds.take 5) (1 + ms.length) hdash5,
          List.append_nil]
      · have h18' : (y :: (ms ++ ds)).length < 18 := by omega
        have ham : availableMonths (y :: (ms ++ ds)) =
            monthCountAux (y :: (ms ++ ds)).length 1 (ms ++ ds) := by
          unfold availableMonths
          rw [if_neg (by omega)]
          rfl
        have hcount : monthCountAux (y :: (ms ++ ds)).length 1 (ms ++ ds) =
            7 + monthCountAux (y :: (ms ++ ds)).length 8 ds := by
          have := monthCountAux_ok_prefix (y :: (ms ++ ds)).length ds ms 1 hok
            (le_refl 1) (by omega)
          rw [this, hlen]
        have hzero : monthCountAux (y :: (ms ++ ds)).length 8 ds = 0 := by
          cases ds with
          | nil => rfl
          | cons d ds2 =>
            have hpd : isPlaceholder d = true := by
              simp only [List.all_cons, Bool.and_eq_true] at hdash
              unfold isPlaceholder
              unfold isDashTok at hdash
              simp [hdash.1]
            simp [monthCountAux, hpd]
        have ham7 : availableMonths (y :: (ms ++ ds)) = 7 := by
          rw [ham, hcount, hzero]
        have htake : (ms ++ ds).take 7 = ms := by
          rw [← hlen]
          simp
        rw [ham7, htake]
    rw [key, emitRecords_ok year param region hy1 hy2 ms 1 (all_floatTok_of_monthTokOk hok)
      (le_refl 1) (by omega)]
    constructor
    · simp [hlen]
    · rw [map_month_zipWith]
      rw [zipWith_snd ms _ (by simp), hlen]
      decide

/-- Witness for C3 at a concrete partial row: year 2025, numeric months at
positions 1–7, placeholders from month 8 on. -/
theorem month_count_inference_witness :
    (parseParts "Tmax" "UK" partialRow).1.length = 7 ∧
    (parseParts "Tmax" "UK" partialRow).1.map (fun r => r.date.month) =
      [1, 2, 3, 4, 5, 6, 7] := by
  have h := month_count_inference.2 "Tmax" "UK" (("2025" : String).data) 2025
    partialMonths partialDashes (by decide) (by decide) (by decide) (by decide)
    (by decide) (by decide)
  simpa [partialRow] using h

/-- C6: a data row with 12 numeric monthly tokens plus 5 seasonal tokens
yields exactly 12 records with correct `(year, month)` pairing, each dated
the first day of its month, and its seasonal summaries are read from fixed
token positions 13–17 in the order winter, spring, summer, autumn, annual:
placeholder tokens are skipped without error, each non-placeholder numeric
token produces a summary keyed by `(year, season)`, and with all 5 seasonal
tokens numeric exactly 5 summaries are produced. -/
theorem full_year_row_emission (param region : String) (y : Str) (year : Int)
    (ms ss : List Str)
    (hy : pyInt y = some year) (hy1 : 1 ≤ year) (hy2 : year ≤ 9999)
    (hm : ms.length = 12) (hms : ms.all floatTok = true)
    (hs5 : ss.length = 5)
    (hsok : ss.all (fun t => isPlaceholder t || floatTok t) = true) :
    (parseParts param region (y :: (ms ++ ss))).1 =
      List.zipWith (fun t k => ⟨⟨year, k, 1⟩, (pyFloat t).getD 0, param, region, ""⟩)
        ms (List.range' 1 12) ∧
    (parseParts param region (y :: (ms ++ ss))).1.length = 12 ∧
    (parseParts param region (y :: (ms ++ ss))).2 =
      (List.zip seasonNames ss).filterMap
        (fun p => if isPlaceholder p.2 then none
          else some ⟨year, p.1, (pyFloat p.2).getD 0, param, region⟩) ∧
    (ss.all floatTok = true →
      (parseParts param region (y :: (ms ++ ss))).2.map (fun s => (s.year, s.season)) =
        seasonNames.map (fun nm => (year, nm)) ∧
      (parseParts param region (y :: (ms ++ ss))).2.length = 5) := by
  have hlen2 : ¬ ((y :: (ms ++ ss)).length < 2) := by
    simp only [List.length_cons, List.length_append, hm, hs5]
    omega
  have h18 : 18 ≤ (y :: (ms ++ ss)).length := by
    simp only [List.length_cons, List.length_append, hm, hs5]
    omega
  have ham : availableMonths (y :: (ms ++ ss)) = 12 := by
    unfold availableMonths
    rw [if_pos h18]
  have htake : (ms ++ ss).take 12 = ms := by
    rw [← hm]
    simp
  have hrec : (parseParts param region (y :: (ms ++ ss))).1 =
      emitRecords year param region 1 ms := by
    simp only [parseParts, hlen2, if_false, List.headD_cons, hy, List.drop_succ_cons,
      List.drop_zero, ham, htake]
  have hrecs : (parseParts param region (y :: (ms ++ ss))).1 =
      List.zipWith (fun t k => ⟨⟨year, k, 1⟩, (pyFloat t).getD 0, param, region, ""⟩)
        ms (List.range' 1 12) := by
    rw [hrec, emitRecords_ok year param region hy1 hy2 ms 1 hms (le_refl 1) (by omega), hm]
  obtain ⟨a, b, c, d, e, rfl⟩ : ∃ a b c d e, ss = [a, b, c, d, e] := by
    match ss, hs5 with
    | [a, b, c, d, e], _ => exact ⟨a, b, c, d, e, rfl⟩
  simp only [List.all_cons, List.all_nil, Bool.and_eq_true, Bool.and_true] at hsok
  obtain ⟨ha, hb, hc, hd, he⟩ := hsok
  have hsea : (parseParts param region (y :: (ms ++ [a, b, c, d, e]))).2 =
      emitSeasonal year param region (y :: (ms ++ [a, b, c, d, e])) := by
    simp only [parseParts, hlen2, if_false, List.headD_cons, hy]
  have hpre : (y :: ms).length = 13 := by simp [hm]
  have hcat : y :: (ms ++ [a, b, c, d, e]) = (y :: ms) ++ [a, b, c, d, e] := by simp
  have hsummary : (parseParts param region (y :: (ms ++ [a, b, c, d, e]))).2 =
      (List.zip seasonNames [a, b, c, d, e]).filterMap
        (fun p => if isPlaceholder p.2 then none
          else some ⟨year, p.1, (pyFloat p.2).getD 0, param, region⟩) := by
    rw [hsea, hcat]
    exact emitSeasonal_five year param region (y :: ms) a b c d e hpre ha hb hc hd he
  refine ⟨hrecs, ?_, hsummary, ?_⟩
  · rw [hrecs]
    simp [hm]
  · intro hfl
    simp only [List.all_cons, List.all_nil, Bool.and_eq_true, Bool.and_true] at hfl
    obtain ⟨ha2, hb2, hc2, hd2, he2⟩ := hfl
    rw [hsummary]
    simp [seasonNames, floatTok_not_placeholder ha2, floatTok_not_placeholder hb2,
      floatTok_not_placeholder hc2, floatTok_not_placeholder hd2,
      floatTok_not_placeholder he2]

/-- Witness for C6 at a concrete complete row: year 2023, twelve numeric
months, five numeric seasonal columns. -/
theorem full_year_row_emission_witness :
    (parseParts "Tmax" "UK" fullRow).1.length = 12 ∧
    (parseParts "Tmax" "UK" fullRow).2.length = 5 ∧
    (parseParts "Tmax" "UK" fullRow).2.map (fun s => (s.year, s.season)) =
      [(2023, "winter"), (2023, "spring"), (2023, "summer"), (2023, "autumn"),
       (2023, "annual")] := by
  have h := full_year_row_emission "Tmax" "UK" (("2023" : String).data) 2023
    (fullRow.drop 1 |>.take 12) (fullRow.drop 13)
    (by decide) (by decide) (by decide) (by decide) (by decide) (by decide) (by decide)
  have hsplit : (("2023" : String).data ::
      ((fullRow.drop 1 |>.take 12) ++ fullRow.drop 13)) = fullRow := by decide
  rw [hsplit] at h
  refine ⟨h.2.1, (h.2.2.2 (by decide)).2, ?_⟩
  have := (h.2.2.2 (by decide)).1
  simpa [seasonNames] using this

/-- Witness for C2 amended, at a bulletin with a month-abbreviation header on
line 0: the rows from line 1 are parsed. -/
theorem header_detection_amended_witness :
    parseData rawWithHeader "Tmax" "UK" =
      ParseResult.ok
        [⟨⟨2000, 1, 1⟩, mkRat 1 1, "Tmax", "UK", ""⟩,
         ⟨⟨2000, 2, 1⟩, mkRat 2 1, "Tmax", "UK", ""⟩] [] := by
  have h := ((header_detection_amended rawWithHeader "Tmax" "UK").2 0 (by decide)).1 (by decide)
  rw [h]
  decide

/-- C4 counterexample: a batch of no monthly records and one fresh seasonal
summary persists one new seasonal row (so the combined created total is 1)
and fails nothing, yet the final log reports `records_created = 0`: the
`completed` transition overwrites the combined totals with the monthly-only
counters. -/
theorem log_totals_cex :
    (saveRecords emptyDb [] [sampleSummary] initLog).2.1.status = "completed" ∧
    (saveRecords emptyDb [] [sampleSummary] initLog).2.1.records_failed = 0 ∧
    (saveRecords emptyDb [] [sampleSummary] initLog).1.seasonalRows.length = 1 ∧
    (saveRecords emptyDb [] [sampleSummary] initLog).2.1.records_processed = 1 ∧
    (saveRecords emptyDb [] [sampleSummary] initLog).2.1.records_created = 0 := by
  refine ⟨by decide, by decide, by decide, by decide, by decide⟩

/-- C4 amended: after `save_records`, the log always holds the combined
processed count and the failed count with `end_time` set, and makes its
single terminal transition: to `completed` when the failed count is zero —
in which case `mark_completed` overwrites `records_created`/`records_updated`
with the monthly-only counters — and to `partial` when the failed count is
positive, in which case they keep the combined monthly-plus-seasonal
totals. -/
theorem save_records_log_amended (db : Db) (records : List RecordDict)
    (summaries : List SummaryDict) (log : LogState) (rc pn : String)
    (hres : resolvePair records summaries = some (rc, pn)) :
    (saveRecords db records summaries log).2.1.records_processed =
      records.length + summaries.length ∧
    (saveRecords db records summaries log).2.1.records_failed =
      (saveMonthly rc pn db.weatherRecords records).2.2.2 ∧
    (saveRecords db records summaries log).2.1.end_time_set = true ∧
    ((saveMonthly rc pn db.weatherRecords records).2.2.2 = 0 →
      (saveRecords db records summaries log).2.1.status = "completed" ∧
      (saveRecords db records summaries log).2.1.records_created =
        (saveMonthly rc pn db.weatherRecords records).2.1 ∧
      (saveRecords db records summaries log).2.1.records_updated =
        (saveMonthly rc pn db.weatherRecords records).2.2.1) ∧
    ((saveMonthly rc pn db.weatherRecords records).2.2.2 ≠ 0 →
      (saveRecords db records summaries log).2.1.status = "partial" ∧
      (saveRecords db records summaries log).2.1.records_created =
        (saveMonthly rc pn db.weatherRecords records).2.1 +
          (saveSeasonal rc pn db.seasonalRows summaries).2.1 ∧
      (saveRecords db records summaries log).2.1.records_updated =
        (saveMonthly rc pn db.weatherRecords records).2.2.1 +
          (saveSeasonal rc pn db.seasonalRows summaries).2.2) := by
  by_cases hf : (saveMonthly rc pn db.weatherRecords records).2.2.2 = 0
  · simp [saveRecords, hres, hf, markCompleted]
  · simp [saveRecords, hres, hf, markCompleted]

/-- Witness for C4 amended at a one-record, one-summary batch on an empty
database: everything persists, the log completes with `end_time` set. -/
theorem save_records_log_amended_witness :
    (saveRecords emptyDb [sampleRecord] [sampleSummary] initLog).2.1.status = "completed" ∧
    (saveRecords emptyDb [sampleRecord] [sampleSummary] initLog).2.1.records_processed = 2 ∧
    (saveRecords emptyDb [sampleRecord] [sampleSummary] initLog).2.1.records_created = 1 ∧
    (saveRecords emptyDb [sampleRecord] [sampleSummary] initLog).2.1.end_time_set = true := by
  have h := save_records_log_amended emptyDb [sampleRecord] [sampleSummary] initLog
    "UK" "Tmax" (by decide)
  obtain ⟨h1, h2, h3, h4, h5⟩ := h
  have hf : (saveMonthly "UK" "Tmax" emptyDb.weatherRecords [sampleRecord]).2.2.2 = 0 := by
    decide
  obtain ⟨hs, hc, hu⟩ := h4 hf
  refine ⟨hs, by simpa using h1, ?_, h3⟩
  rw [hc]
  decide

/-- C1 (code bug): for the end-to-end scenario bulletin — a single data line
for 2023 with month 4 a placeholder — the data itself parses to 11 monthly
records and 5 seasonal summaries, but because the data line sits at index 0
the `data_start == 0` sentinel makes `parse_data` return the bare empty
`records` list, the orchestrator's tuple unpacking raises, and the log ends
`failed` with nothing processed instead of `completed` with
`records_failed = 0`. -/
theorem raw_bulletin_ingestion_fails :
    isYearDataLine (pyStrip rawScenario.data) = true ∧
    (parseRows "Tmax" "UK" [rawScenario.data]).1.length = 11 ∧
    (parseRows "Tmax" "UK" [rawScenario.data]).2.length = 5 ∧
    parseData rawScenario "Tmax" "UK" = ParseResult.noStart ∧
    (ingestParameterData emptyDb "Tmax" "UK" (some rawScenario)).2.status = "failed" ∧
    (ingestParameterData emptyDb "Tmax" "UK" (some rawScenario)).2.error_message =
      unpackFailMsg ∧
    (ingestParameterData emptyDb "Tmax" "UK" (some rawScenario)).2.records_processed = 0 ∧
    (ingestParameterData emptyDb "Tmax" "UK" (some rawScenario)).1 = emptyDb := by
  refine ⟨by decide, by decide, by decide, by decide, by decide, by decide, by decide,
    by decide⟩

theorem upsertW_provenance (rows : List WRow) (rc pn : String) (d : PyDate) (v : ℚ)
    (qf : String) :
    ∀ w ∈ (upsertW rows rc pn d v qf).1, w ∈ rows ∨ (w.region = rc ∧ w.parameter = pn) := by
  intro w hw
  unfold upsertW at hw
  by_cases hex : rows.any (fun w2 => w2.region = rc ∧ w2.parameter = pn ∧ w2.date = d) = true
  · rw [if_pos hex] at hw
    simp only at hw
    obtain ⟨r, hr, hrw⟩ := List.mem_map.mp hw
    by_cases hk : r.region = rc ∧ r.parameter = pn ∧ r.date = d
    · rw [if_pos hk] at hrw
      right
      rw [← hrw]
      exact ⟨hk.1, hk.2.1⟩
    · rw [if_neg hk] at hrw
      exact Or.inl (hrw ▸ hr)
  · rw [if_neg hex] at hw
    simp only at hw
    rcases List.mem_append.mp hw with h | h
    · exact Or.inl h
    · right
      rw [List.mem_singleton.mp h]
      exact ⟨rfl, rfl⟩

theorem upsertS_provenance (rows : List SRow) (rc pn : String) (y : Int) (season : String)
    (v : ℚ) :
    ∀ s ∈ (upsertS rows rc pn y season v).1,
      s ∈ rows ∨ (s.region = rc ∧ s.parameter = pn) := by
  intro s hs
  unfold upsertS at hs
  by_cases hex : rows.any
      (fun s2 => s2.region = rc ∧ s2.parameter = pn ∧ s2.year = y ∧ s2.season = season) = true
  · rw [if_pos hex] at hs
    simp only at hs
    obtain ⟨r, hr, hrs⟩ := List.mem_map.mp hs
    by_cases hk : r.region = rc ∧ r.parameter = pn ∧ r.year = y ∧ r.season = season
    · rw [if_pos hk] at hrs
      right
      rw [← hrs]
      exact ⟨hk.1, hk.2.1⟩
    · rw [if_neg hk] at hrs
      exact Or.inl (hrs ▸ hr)
  · rw [if_neg hex] at hs
    simp only at hs
    rcases List.mem_append.mp hs with h | h
    · exact Or.inl h
    · right
      rw [List.mem_singleton.mp h]
      exact ⟨rfl, rfl⟩

theorem saveMonthly_provenance (rc pn : String) :
    ∀ (records : List RecordDict) (rows : List WRow),
      ∀ w ∈ (saveMonthly rc pn rows records).1,
        w ∈ rows ∨ (w.region = rc ∧ w.parameter = pn) := by
  intro records
  induction records with
  | nil => intro rows w hw; exact Or.inl hw
  | cons r rs ih =>
    intro rows w hw
    unfold saveMonthly at hw
    by_cases hv : validateRecord r = true
    · rw [if_pos hv] at hw
      simp only at hw
      rcases ih (upsertW rows rc pn r.date r.value r.quality_flag).1 w hw with h | h
      · exact upsertW_provenance rows rc pn r.date r.value r.quality_flag w h
      · exact Or.inr h
    · rw [if_neg hv] at hw
      simp only at hw
      exact ih rows w hw

theorem saveSeasonal_provenance (rc pn : String) :
    ∀ (summaries : List SummaryDict) (rows : List SRow),
      ∀ s ∈ (saveSeasonal rc pn rows summaries).1,
        s ∈ rows ∨ (s.region = rc ∧ s.parameter = pn) := by
  intro summaries
  induction summaries with
  | nil => intro rows s hs; exact Or.inl hs
  | cons s0 rest ih =>
    intro rows s hs
    unfold saveSeasonal at hs
    simp only at hs
    rcases ih (upsertS rows rc pn s0.year s0.season s0.value).1 s hs with h | h
    · exact upsertS_provenance rows rc pn s0.year s0.season s0.value s h
    · exact Or.inr h

theorem validate_region_invariant (r : RecordDict) (x : String) :
    validateRecord { r with region := x } = validateRecord r := rfl

theorem saveMonthly_region_invariant (rc pn : String) (g : RecordDict → String) :
    ∀ (records : List RecordDict) (rows : List WRow),
      saveMonthly rc pn rows (records.map (fun r => { r with region := g r })) =
        saveMonthly rc pn rows records := by
  intro records
  induction records with
  | nil => intro rows; rfl
  | cons r rs ih =>
    intro rows
    by_cases hv : validateRecord r = true
    · have hv2 : validateRecord { r with region := g r } = true := by
        rw [validate_region_invariant]
        exact hv
      simp only [List.map_cons, saveMonthly, hv, hv2, if_true]
      rw [ih]
    · have hv2 : ¬ validateRecord { r with region := g r } = true := by
        rw [validate_region_invariant]
        exact hv
      simp only [List.map_cons, saveMonthly, hv, hv2, Bool.false_eq_true, if_false]
      rw [ih]

theorem saveSeasonal_pair_invariant (rc pn : String) (g3 g4 : SummaryDict → String) :
    ∀ (summaries : List SummaryDict) (rows : List SRow),
      saveSeasonal rc pn rows
          (summaries.map (fun s => { s with region := g3 s, parameter := g4 s })) =
        saveSeasonal rc pn rows summaries := by
  intro summaries
  induction summaries with
  | nil => intro rows; rfl
  | cons s rest ih =>
    intro rows
    simp only [List.map_cons, saveSeasonal]
    rw [ih]

/-- C9: `save_records` resolves the `(region, parameter)` pair solely from
the first record (or the first seasonal summary when the record list is
empty); every weather record and seasonal summary persisted in the batch is
keyed under that single pair, and the region fields of the later records —
and the region/parameter fields of all summaries — are ignored at persist
time: rewriting them arbitrarily leaves the whole result unchanged. -/
theorem persist_single_pair :
    (∀ (db : Db) (r0 : RecordDict) (rest : List RecordDict)
        (summaries : List SummaryDict) (log : LogState),
      (∀ w ∈ (saveRecords db (r0 :: rest) summaries log).1.weatherRecords,
        w ∈ db.weatherRecords ∨ (w.region = r0.region ∧ w.parameter = r0.parameter)) ∧
      (∀ s ∈ (saveRecords db (r0 :: rest) summaries log).1.seasonalRows,
        s ∈ db.seasonalRows ∨ (s.region = r0.region ∧ s.parameter = r0.parameter)) ∧
      (∀ (g : RecordDict → String) (g3 g4 : SummaryDict → String),
        saveRecords db (r0 :: rest.map (fun r => { r with region := g r }))
            (summaries.map (fun s => { s with region := g3 s, parameter := g4 s })) log =
          saveRecords db (r0 :: rest) summaries log)) ∧
    (∀ (db : Db) (s0 : SummaryDict) (srest : List SummaryDict) (log : LogState),
      ∀ s ∈ (saveRecords db [] (s0 :: srest) log).1.seasonalRows,
        s ∈ db.seasonalRows ∨ (s.region = s0.region ∧ s.parameter = s0.parameter)) := by
  constructor
  · intro db r0 rest summaries log
    refine ⟨?_, ?_, ?_⟩
    · intro w hw
      have hrw : (saveRecords db (r0 :: rest) summaries log).1.weatherRecords =
          (saveMonthly r0.region r0.parameter db.weatherRecords (r0 :: rest)).1 := rfl
      rw [hrw] at hw
      exact saveMonthly_provenance r0.region r0.parameter (r0 :: rest) db.weatherRecords w hw
    · intro s hs
      have hrs : (saveRecords db (r0 :: rest) summaries log).1.seasonalRows =
          (saveSeasonal r0.region r0.parameter db.seasonalRows summaries).1 := rfl
      rw [hrs] at hs
      exact saveSeasonal_provenance r0.region r0.parameter summaries db.seasonalRows s hs
    · intro g g3 g4
      have h1 : saveMonthly r0.region r0.parameter db.weatherRecords
          (r0 :: rest.map (fun r => { r with region := g r })) =
          saveMonthly r0.region r0.parameter db.weatherRecords (r0 :: rest) := by
        by_cases hv : validateRecord r0 = true
        · simp only [saveMonthly, hv, if_true]
          rw [saveMonthly_region_invariant]
        · simp only [saveMonthly, hv, Bool.false_eq_true, if_false]
          rw [saveMonthly_region_invariant]
      have h2 : saveSeasonal r0.region r0.parameter db.seasonalRows
          (summaries.map (fun s => { s with region := g3 s, parameter := g4 s })) =
          saveSeasonal r0.region r0.parameter db.seasonalRows summaries :=
        saveSeasonal_pair_invariant r0.region r0.parameter g3 g4 summaries db.seasonalRows
      simp only [saveRecords, resolvePair, h1, h2, List.length_cons, List.length_map]
  · intro db s0 srest log s hs
    have hrs : (saveRecords db [] (s0 :: srest) log).1.seasonalRows =
        (saveSeasonal s0.region s0.parameter db.seasonalRows (s0 :: srest)).1 := rfl
    rw [hrs] at hs
    exact saveSeasonal_provenance s0.region s0.parameter (s0 :: srest) db.seasonalRows s hs

/-- Witness for C9: in a batch whose second record carries region `Wales`,
the persisted second row is keyed under the first record's `(UK, Tmax)`. -/
theorem persist_single_pair_witness :
    (⟨"UK", "Tmax", ⟨2023, 2, 1⟩, 6, ""⟩ : WRow).region = sampleRecord.region ∧
    (⟨"UK", "Tmax", ⟨2023, 2, 1⟩, 6, ""⟩ : WRow).parameter = sampleRecord.parameter := by
  have h := (persist_single_pair.1 emptyDb sampleRecord [strayRecord] [sampleSummary]
    initLog).1 ⟨"UK", "Tmax", ⟨2023, 2, 1⟩, 6, ""⟩ (by decide)
  rcases h with h | h
  · exact absurd h (by decide)
  · exact h

/-- C7: per aggregate target, an existing row with `force` false is skipped
(no-op) and otherwise the row with the freshly computed statistics is created
or overwritten; consequently running the monthly aggregate job twice with
`force=false` over unchanged source records leaves the aggregate rows
identical after the second run. -/
theorem monthly_aggregates_idempotent :
    (∀ (force : Bool) (rows : List AggRow) (g : AggKey × AggVal),
      (aggExists rows g.1 = true → force = false → aggStep force rows g = rows) ∧
      (aggExists rows g.1 = false ∨ force = true →
        (⟨g.1, g.2⟩ : AggRow) ∈ aggStep force rows g)) ∧
    (∀ (records : List WRow) (rows : List AggRow),
      generateMonthlyAggregates false records (generateMonthlyAggregates false records rows) =
        generateMonthlyAggregates false records rows) := by
  constructor
  · intro force rows g
    constructor
    · intro hex hforce
      subst hforce
      unfold aggStep
      rw [if_pos]
      rw [hex]
      rfl
    · intro h
      unfold aggStep
      have hcond : ¬ (aggExists rows g.1 && !force) = true := by
        rcases h with h | h
        · simp [h]
        · simp [h]
      rw [if_neg hcond]
      by_cases h2 : aggExists rows g.1
      · rw [if_pos h2]
        unfold aggExists at h2
        rw [List.any_eq_true] at h2
        obtain ⟨r, hr, hrk⟩ := h2
        refine List.mem_map.mpr ⟨r, hr, ?_⟩
        simp only [decide_eq_true_eq] at hrk
        simp [hrk]
      · rw [if_neg h2]
        exact List.mem_append_right _ (List.mem_singleton_self _)
  · intro records rows
    unfold generateMonthlyAggregates
    exact aggRun_skips_all (monthlyGroups records) _
      fun g hg => aggRun_establishes false (monthlyGroups records) rows g hg

/-- Witness for C7: concrete creation of a missing aggregate row and a
concrete double run. -/
theorem monthly_aggregates_idempotent_witness :
    (⟨⟨"UK", "Tmax", "monthly", ⟨2023, 1, 1⟩, ⟨2023, 1, 31⟩⟩, ⟨5, 5, 5, 1⟩⟩ : AggRow) ∈
      aggStep false []
        (⟨"UK", "Tmax", "monthly", ⟨2023, 1, 1⟩, ⟨2023, 1, 31⟩⟩, ⟨5, 5, 5, 1⟩) ∧
    generateMonthlyAggregates false [sampleWRow]
        (generateMonthlyAggregates false [sampleWRow] []) =
      generateMonthlyAggregates false [sampleWRow] [] := by
  constructor
  · exact (monthly_aggregates_idempotent.1 false []
      (⟨"UK", "Tmax", "monthly", ⟨2023, 1, 1⟩, ⟨2023, 1, 31⟩⟩, ⟨5, 5, 5, 1⟩)).2
      (Or.inl (by decide))
  · exact monthly_aggregates_idempotent.2 [sampleWRow] []

/-- C10: a fetch that succeeds with an empty body is handled exactly like a
fetch failure — the log is marked failed with the fetch-failure message —
because the orchestrator tests the text for falsiness. -/
theorem empty_fetch_treated_as_fetch_failure (db : Db) (param region : String) :
    ingestParameterData db param region (some "") = ingestParameterData db param region none ∧
    (ingestParameterData db param region (some "")).2.status = "failed" ∧
    (ingestParameterData db param region (some "")).2.error_message = fetchFailMsg := by
  refine ⟨rfl, rfl, rfl⟩
